import Mathlib

/-!
Verification of the nrf24-time-client repository: a shallow embedding of the
time-synchronization client (signature-gated payload decoder, receive-with-
timeout poller, and retry loop committing the decoded time to the RTC),
together with theorems settling the specified properties.

Conventions of the embedding:
* Byte buffers are `List ℕ` whose elements are bytes (< 256); `payload[i]`
  becomes `buf.getD i 0`.
* The AVR target's machine arithmetic is made explicit: 16-bit wraparound is
  `% 2^16`, the 8-bit `tmElements_t` fields truncate assigned values `% 256`,
  and the 32-bit `unsigned long` subtraction `millis() - started` is `% 2^32`.
* Side effects (radio mode changes, the RTC write) are reified as explicit
  event values returned by the embedded functions.
-/

namespace NRF24TimeClient

/-- 32-bit unsigned wraparound subtraction, as performed by
`millis() - started` on two `unsigned long` values in `nrf24_receive`. -/
def u32sub (a b : ℕ) : ℕ :=
  (a + (2 ^ 32 - b % 2 ^ 32)) % 2 ^ 32

/-- The elapsed-time test `millis() - started > timeout` of `nrf24_receive`
(line `if (millis() - started > timeout)`). -/
def timeoutCheck (now started timeout : ℕ) : Bool :=
  decide (timeout < u32sub now started)

/-- The decoded `tmElements_t` structure of TimeLib: seven 8-bit fields. -/
structure TmElements where
  Year : ℕ
  Month : ℕ
  Day : ℕ
  Hour : ℕ
  Minute : ℕ
  Second : ℕ
  Wday : ℕ
  deriving DecidableEq

/-- The signature test of `rtc_set_time_from_payload`:
`payload[0] == 0xfe && payload[1] == 0x54 && payload[2] == 0x49 &&
 payload[3] == 0x4d && payload[4] == 0x45`. -/
def sigOK (buf : List ℕ) : Bool :=
  buf.getD 0 0 == 0xfe && buf.getD 1 0 == 0x54 && buf.getD 2 0 == 0x49 &&
    buf.getD 3 0 == 0x4d && buf.getD 4 0 == 0x45

/-- `tm.Year = (payload[6] << 8 | payload[5]) - 1970` of
`rtc_set_time_from_payload`: the 16-bit value `payload[6] << 8 | payload[5]`
(bytes, so `|` is addition), the subtraction of 1970 wrapping in 16-bit
machine arithmetic, and the assignment truncating to the 8-bit `tm.Year`. -/
def tmYear (buf : List ℕ) : ℕ :=
  (buf.getD 6 0 * 256 + buf.getD 5 0 + (2 ^ 16 - 1970)) % 2 ^ 16 % 256

/-- `tm.Wday = payload[12] % 7 + 1` of `rtc_set_time_from_payload`. -/
def tmWday (b : ℕ) : ℕ :=
  b % 7 + 1

/-- The field extraction of `rtc_set_time_from_payload` (lines
`tm.Year = ...` through `tm.Wday = ...`); each assignment to an 8-bit
`tmElements_t` field truncates `% 256`. -/
def decodedTm (buf : List ℕ) : TmElements where
  Year := tmYear buf
  Month := buf.getD 7 0 % 256
  Day := buf.getD 8 0 % 256
  Hour := buf.getD 9 0 % 256
  Minute := buf.getD 10 0 % 256
  Second := buf.getD 11 0 % 256
  Wday := tmWday (buf.getD 12 0)

/-- Leap-year test of the standard calendar conversion (Gregorian rule). -/
def isLeapYear (y : ℕ) : Bool :=
  y % 4 == 0 && (y % 100 != 0 || y % 400 == 0)

/-- Days of the twelve months of a non-leap year. -/
def monthDays : List ℕ :=
  [31, 28, 31, 30, 31, 30, 31, 31, 30, 31, 30, 31]

/-- Days in month `m` (1-based) of year `y`. -/
def daysInMonth (y m : ℕ) : ℕ :=
  if m == 2 && isLeapYear y then 29 else monthDays.getD (m - 1) 0

/-- Modelled from the spec: the canonical year/month/day/hour/minute/second →
seconds-since-epoch transform (proleptic Gregorian, no leap seconds,
"matching standard calendar library conventions") that `makeTime` of the
external TimeLib library performs; that library is not part of `src/`.
`yOff` is the year counted from the 1970 epoch, as stored in `tm.Year`. -/
def makeTime (yOff month day hour minute second : ℕ) : ℕ :=
  let leapDays := ((List.range yOff).filter fun i => isLeapYear (1970 + i)).length
  let daysBefore :=
    (List.range (month - 1)).foldl (fun acc i => acc + daysInMonth (1970 + yOff) (i + 1)) 0
  (yOff * 365 + leapDays + daysBefore + (day - 1)) * 86400 +
    hour * 3600 + minute * 60 + second

/-- Seconds since epoch of an absolute calendar date, for readability of
concrete statements: the calendar conversion applied to `year - 1970`. -/
def epochSeconds (year month day hour minute second : ℕ) : ℕ :=
  makeTime (year - 1970) month day hour minute second

/-- `rtc_set_time_from_payload`: checks the signature; on a match extracts
the fields, converts them with `makeTime` and writes the result to the RTC,
returning `true`; otherwise returns `false` having touched nothing. The
returned pair is (boolean result, RTC write performed: `some t` exactly when
`RTC.set(t)` was called). -/
def rtcSetTimeFromPayload (buf : List ℕ) : Bool × Option ℕ :=
  if sigOK buf then
    let tm := decodedTm buf
    (true, some (makeTime tm.Year tm.Month tm.Day tm.Hour tm.Minute tm.Second))
  else
    (false, none)

/-- The RTC's stored time after a call of `rtc_set_time_from_payload`,
given its previous stored time: a performed write overwrites it. -/
def rtcAfter (prev : ℕ) (buf : List ℕ) : ℕ :=
  ((rtcSetTimeFromPayload buf).2).getD prev

/-- One attempt of the `nrf24_receive_date_time` loop, abstracted by its
observable outcome: `none` when `nrf24_receive(1000)` timed out, `some buf`
when it read payload `buf`. `attemptFails` holds when the iteration does not
break out of the loop (timeout, or packet rejected by the decoder). -/
def attemptFails (o : Option (List ℕ)) : Bool :=
  match o with
  | none => true
  | some buf => !(rtcSetTimeFromPayload buf).1

/-- The `while (true)` loop of `nrf24_receive_date_time`, run over a list of
attempt outcomes: each received payload is passed to
`rtc_set_time_from_payload`; the loop breaks on the first accepted packet.
Result: (trace of RTC.set calls, whether the loop terminated within the
given attempts). -/
def receiveDateTimeLoop : List (Option (List ℕ)) → List ℕ × Bool
  | [] => ([], false)
  | none :: rest => receiveDateTimeLoop rest
  | some buf :: rest =>
    let r := rtcSetTimeFromPayload buf
    if r.1 then
      (r.2.toList, true)
    else
      let next := receiveDateTimeLoop rest
      (r.2.toList ++ next.1, next.2)

/-- Radio side effects of `nrf24_receive`, in program order. -/
inductive RadioEvent
  | startListening
  | read
  | stopListening
  deriving DecidableEq

/-- The availability/timeout wait loop of `nrf24_receive`
(`while (!radio.available()) { if (millis() - started > timeout) ... }`).
`avail i` is what `radio.available()` reports at its `i`-th call, `clock i`
the value of the `i`-th `millis()` call of the whole function (call 0 is
`started = millis()`). Returns `some timed_out`, or `none` when the supplied
fuel is exhausted before the loop exits. -/
def waitAvail (avail : ℕ → Bool) (clock : ℕ → ℕ) (timeout started : ℕ) :
    ℕ → ℕ → Option Bool
  | _, 0 => none
  | i, fuel + 1 =>
    if avail i then some false
    else if timeoutCheck (clock (i + 1)) started timeout then some true
    else waitAvail avail clock timeout started (i + 1) fuel

/-- `nrf24_receive(timeout)`: starts listening, records `started = millis()`,
runs the wait loop, reads the payload if data arrived in time, stops
listening, and returns the boolean result together with the trace of radio
side effects in program order. `none` when the wait loop is not given enough
fuel to exit. -/
def nrf24Receive (avail : ℕ → Bool) (clock : ℕ → ℕ) (timeout fuel : ℕ) :
    Option (Bool × List RadioEvent) :=
  match waitAvail avail clock timeout (clock 0) 0 fuel with
  | none => none
  | some true => some (false, [RadioEvent.startListening, RadioEvent.stopListening])
  | some false => some (true, [RadioEvent.startListening, RadioEvent.read, RadioEvent.stopListening])

/-- Whether the radio is in listening mode after processing a trace of radio
events, starting (as `nrf24_client_setup` leaves it) out of listening mode. -/
def listeningAfter (evs : List RadioEvent) : Bool :=
  evs.foldl
    (fun st e =>
      match e with
      | RadioEvent.startListening => true
      | RadioEvent.stopListening => false
      | RadioEvent.read => st)
    false

/-- The signature test of the older 10-byte variant (`receiveDateTime`):
`payload[0] == 0x74 && payload[1] == 0x69 && payload[2] == 0x6d`. -/
def oldSigOK (buf : List ℕ) : Bool :=
  buf.getD 0 0 == 0x74 && buf.getD 1 0 == 0x69 && buf.getD 2 0 == 0x6d

/-- `tm.Year = (payload[3] << 8 | payload[4]) - 1970` of the older variant:
big-endian 16-bit year, the same 16-bit wraparound subtraction and 8-bit
truncation as the newer decoder. -/
def oldTmYear (buf : List ℕ) : ℕ :=
  (buf.getD 3 0 * 256 + buf.getD 4 0 + (2 ^ 16 - 1970)) % 2 ^ 16 % 256

/-- The decode branch of the older variant `receiveDateTime`: on signature
"tim" extracts Year (big-endian at 3-4) and Month/Day/Hour/Minute/Second at
5-9, returning `makeTime` of the fields; otherwise rejects the payload. -/
def receiveDateTimeDecode (buf : List ℕ) : Option ℕ :=
  if oldSigOK buf then
    some (makeTime (oldTmYear buf) (buf.getD 5 0 % 256) (buf.getD 6 0 % 256)
      (buf.getD 7 0 % 256) (buf.getD 8 0 % 256) (buf.getD 9 0 % 256))
  else
    none

/-- Modelled from the spec: the encoder inverting the external-interface
wire-format table (the transmitting server is not part of `src/`): signature
`0xFE` "TIME", then the Year entry `Year = (byte6<<8 | byte5) - 1970`
inverted as the 16-bit value `1970 + yOff` split low byte at offset 5, high
byte at offset 6, then month/day/hour/minute/second one byte each at 7-11,
a raw weekday byte at 12, zero-padded to the fixed 32 bytes. -/
def encodeFields (yOff month day hour minute second : ℕ) : List ℕ :=
  [0xfe, 0x54, 0x49, 0x4d, 0x45,
    (1970 + yOff) % 256, (1970 + yOff) / 256 % 256,
    month, day, hour, minute, second, 0] ++ List.replicate 19 0

/-- The concrete 32-byte buffer of the spec's decoding scenario. -/
def demoBuf : List ℕ :=
  [0xfe, 0x54, 0x49, 0x4d, 0x45, 0x32, 0x00, 7, 24, 10, 30, 0, 3] ++
    List.replicate 19 0

/-- A 32-byte buffer with no valid signature. -/
def badBuf : List ℕ :=
  List.replicate 32 0

/-! ### Helper lemmas -/

/-- A rejected payload leaves the RTC untouched: on `sigOK buf = false` the
decoder returns `(false, none)`. -/
lemma rtc_of_sig_false {buf : List ℕ} (h : sigOK buf = false) :
    rtcSetTimeFromPayload buf = (false, none) := by
  simp [rtcSetTimeFromPayload, h]

/-- An accepted payload performs exactly one RTC write. -/
lemma rtc_of_fst_true {buf : List ℕ} (h : (rtcSetTimeFromPayload buf).1 = true) :
    rtcSetTimeFromPayload buf =
      (true, some (makeTime (decodedTm buf).Year (decodedTm buf).Month
        (decodedTm buf).Day (decodedTm buf).Hour (decodedTm buf).Minute
        (decodedTm buf).Second)) := by
  by_cases hs : sigOK buf
  · simp [rtcSetTimeFromPayload, hs]
  · rw [rtc_of_sig_false (by simpa using hs)] at h
    simp at h

/-- A rejected payload is reported by a `false` first component. -/
lemma rtc_of_fst_false {buf : List ℕ} (h : (rtcSetTimeFromPayload buf).1 = false) :
    rtcSetTimeFromPayload buf = (false, none) := by
  by_cases hs : sigOK buf
  · simp [rtcSetTimeFromPayload, hs] at h
  · exact rtc_of_sig_false (by simpa using hs)

/-! ### Claims -/

/-- C1: the decoder `rtc_set_time_from_payload` accepts a 32-byte payload
buffer (returns `true` and proceeds to decode) if and only if its first five
bytes are `0xFE 'T' 'I' 'M' 'E'`; any other buffer is rejected with the
failure result `(false, none)` — total, no crash, no partial decode. -/
theorem signature_gate_iff (buf : List ℕ) (h : buf.length = 32) :
    ((rtcSetTimeFromPayload buf).1 = true ↔
      buf.take 5 = [0xfe, 0x54, 0x49, 0x4d, 0x45]) ∧
    ((rtcSetTimeFromPayload buf).1 = false →
      rtcSetTimeFromPayload buf = (false, none)) := by
  refine ⟨?_, fun hf => rtc_of_fst_false hf⟩
  rcases buf with _ | ⟨b0, _ | ⟨b1, _ | ⟨b2, _ | ⟨b3, _ | ⟨b4, rest⟩⟩⟩⟩⟩ <;>
    simp only [List.length] at h <;> try omega
  have key : sigOK (b0 :: b1 :: b2 :: b3 :: b4 :: rest) = true ↔
      (b0 :: b1 :: b2 :: b3 :: b4 :: rest).take 5 = [0xfe, 0x54, 0x49, 0x4d, 0x45] := by
    simp only [sigOK, List.getD_cons_zero, List.getD_cons_succ,
      Bool.and_eq_true, beq_iff_eq]
    have htake : (b0 :: b1 :: b2 :: b3 :: b4 :: rest).take 5 =
        [b0, b1, b2, b3, b4] := rfl
    rw [htake]
    simp only [List.cons.injEq, and_true]
    tauto
  rw [← key]
  by_cases hs : sigOK (b0 :: b1 :: b2 :: b3 :: b4 :: rest)
  · simp [rtcSetTimeFromPayload, hs]
  · have hf : sigOK (b0 :: b1 :: b2 :: b3 :: b4 :: rest) = false := by
      simpa using hs
    rw [rtc_of_sig_false hf]
    simp [hf]

/-- Witness for C1 at the all-zero 32-byte buffer. -/
theorem signature_gate_iff_witness :
    ((rtcSetTimeFromPayload badBuf).1 = true ↔
      badBuf.take 5 = [0xfe, 0x54, 0x49, 0x4d, 0x45]) :=
  (signature_gate_iff badBuf (by decide)).1

/-- C5: the poller's elapsed-time test `millis() - started > timeout` is
computed with 32-bit unsigned wraparound subtraction, so for every recorded
start value `s < 2^32` and every later reading taken a true elapsed time
`e < 2^32` afterwards — the reading being `(s + e) % 2^32`, which covers the
counter wrapping past its maximum mid-wait — the test reports `true` exactly
when more than `timeout` milliseconds have elapsed. -/
theorem timeout_wraparound_safe (s e t : ℕ) (_hs : s < 2 ^ 32) (he : e < 2 ^ 32) :
    timeoutCheck ((s + e) % 2 ^ 32) s t = true ↔ t < e := by
  have h32 : (2 : ℕ) ^ 32 = 4294967296 := by norm_num
  have hsub : u32sub ((s + e) % 2 ^ 32) s = e := by
    unfold u32sub
    rw [h32] at he ⊢
    omega
  rw [timeoutCheck, hsub, decide_eq_true_iff]

/-- Witness for C5: the counter wraps mid-wait (start near the maximum),
and the test still detects that 2000 ms > 1000 ms have elapsed. -/
theorem timeout_wraparound_safe_witness :
    4294966296 < 2 ^ 32 ∧
      timeoutCheck ((4294966296 + 2000) % 2 ^ 32) 4294966296 1000 = true :=
  ⟨by norm_num,
    (timeout_wraparound_safe 4294966296 2000 1000 (by norm_num) (by norm_num)).mpr
      (by norm_num)⟩

/-- C7: a buffer whose first five bytes differ from the signature
`0xFE 'T' 'I' 'M' 'E'` in at least one position (hence in at least one bit)
is rejected: the decoder returns `(false, none)`, performs no RTC write, and
the stored time is unchanged for every previous value. -/
theorem signature_reject_no_write (buf : List ℕ) (i : ℕ) (hi : i < 5)
    (hne : buf.getD i 0 ≠ [0xfe, 0x54, 0x49, 0x4d, 0x45].getD i 0) :
    rtcSetTimeFromPayload buf = (false, none) ∧
      ∀ prev, rtcAfter prev buf = prev := by
  have hs : sigOK buf = false := by
    cases hsig : sigOK buf with
    | false => rfl
    | true =>
      exfalso
      simp only [sigOK, Bool.and_eq_true, beq_iff_eq] at hsig
      interval_cases i <;> simp_all [List.getD]
  refine ⟨rtc_of_sig_false hs, fun prev => ?_⟩
  rw [rtcAfter, rtc_of_sig_false hs]
  rfl

/-- Witness for C7 at the all-zero buffer, differing at position 0. -/
theorem signature_reject_no_write_witness :
    rtcSetTimeFromPayload badBuf = (false, none) ∧
      ∀ prev, rtcAfter prev badBuf = prev :=
  signature_reject_no_write badBuf 0 (by decide) (by decide)

/-- C8: the weekday mapping `payload[12] % 7 + 1` sends each input `0..6`
to `1..7`, wraps every input `≥ 7` modulo 7, always lands in `[1, 7]`, and
in particular maps 0, 6, 7, 13, 255 to 1, 7, 1, 7, 4. -/
theorem weekday_mapping :
    (∀ n, n ≤ 6 → tmWday n = n + 1) ∧
    (∀ n, 7 ≤ n → tmWday n = tmWday (n % 7)) ∧
    (∀ n, 1 ≤ tmWday n ∧ tmWday n ≤ 7) ∧
    tmWday 0 = 1 ∧ tmWday 6 = 7 ∧ tmWday 7 = 1 ∧ tmWday 13 = 7 ∧
      tmWday 255 = 4 := by
  refine ⟨fun n h => ?_, fun n h => ?_, fun n => ⟨?_, ?_⟩,
    rfl, rfl, rfl, rfl, rfl⟩ <;> (unfold tmWday; omega)

/-- Witness for C8 at input 3 (the raw weekday byte of the spec's demo
packet). -/
theorem weekday_mapping_witness : tmWday 3 = 3 + 1 :=
  weekday_mapping.1 3 (by decide)

/-- C3 fails on the code: the scenario buffer
`[0xFE,'T','I','M','E', 0x32,0x00, 7, 24, 10, 30, 0, 3]` does NOT decode to
year 2020. The decoder computes `tm.Year = (0x0032 - 1970) mod 256 = 128`
(the wire field carries an absolute year, and 50 − 1970 underflows the 8-bit
field), so the committed timestamp is not the epoch-seconds of
2020-07-24 10:30:00 UTC. -/
theorem demo_packet_not_2020 :
    (decodedTm demoBuf).Year ≠ 2020 - 1970 ∧
      (rtcSetTimeFromPayload demoBuf).2 ≠
        some (epochSeconds 2020 7 24 10 30 0) ∧
      epochSeconds 2020 7 24 10 30 0 = 1595586600 := by
  refine ⟨by decide, by decide, by decide⟩

/-- C3 (amended): the scenario buffer is accepted with Month=7, Day=24,
Hour=10, Minute=30, Second=0, Weekday = 3%7+1 = 4, but its Year field decodes
to `(0x0032 - 1970) mod 2^8 = 128`, so the timestamp committed to the RTC is
the epoch-seconds of 2098-07-24 10:30:00 UTC (4057036200). -/
theorem demo_packet_decodes_to_2098 :
    rtcSetTimeFromPayload demoBuf =
        (true, some (epochSeconds 2098 7 24 10 30 0)) ∧
      decodedTm demoBuf = ⟨128, 7, 24, 10, 30, 0, 4⟩ ∧
      epochSeconds 2098 7 24 10 30 0 = 4057036200 := by
  refine ⟨by decide, by decide, by decide⟩

/-- C2 fails on the code: for the valid field tuple
(year offset 256, month 1, day 1, 0:00:00), encoding by the
external-interface table and decoding yields Year field 0, not 256 — the
8-bit `tm.Year` truncates the offset — and the committed timestamp differs
from the one derived from the original fields. -/
theorem roundtrip_fails_at_offset_256 :
    (decodedTm (encodeFields 256 1 1 0 0 0)).Year = 0 ∧
      (0 : ℕ) ≠ 256 ∧
      (rtcSetTimeFromPayload (encodeFields 256 1 1 0 0 0)).2 ≠
        some (makeTime 256 1 1 0 0 0) := by
  refine ⟨by decide, by decide, by decide⟩

/-- C2 (amended): for every valid field tuple whose year offset lies in
[0, 255] (the capacity of the 8-bit `tm.Year` field), encoding into the
32-byte wire format and decoding with `rtc_set_time_from_payload` accepts
the packet, reproduces exactly the six fields, and commits the identical
derived calendar timestamp. -/
theorem roundtrip_byte_year_offset (yOff mo d h mi s : ℕ)
    (hy : yOff < 256) (hmo1 : 1 ≤ mo) (hmo : mo ≤ 12)
    (hd1 : 1 ≤ d) (hd : d ≤ 31) (hh : h ≤ 23) (hmi : mi ≤ 59)
    (hsec : s ≤ 59) :
    (rtcSetTimeFromPayload (encodeFields yOff mo d h mi s)).1 = true ∧
      decodedTm (encodeFields yOff mo d h mi s) = ⟨yOff, mo, d, h, mi, s, 1⟩ ∧
      (rtcSetTimeFromPayload (encodeFields yOff mo d h mi s)).2 =
        some (makeTime yOff mo d h mi s) := by
  have hsig : sigOK (encodeFields yOff mo d h mi s) = true := rfl
  have hYear : tmYear (encodeFields yOff mo d h mi s) = yOff := by
    have h1 : tmYear (encodeFields yOff mo d h mi s) =
        ((1970 + yOff) / 256 % 256 * 256 + (1970 + yOff) % 256 +
          (2 ^ 16 - 1970)) % 2 ^ 16 % 256 := rfl
    have h2 : (2 : ℕ) ^ 16 = 65536 := by norm_num
    rw [h1, h2]
    omega
  have htm : decodedTm (encodeFields yOff mo d h mi s) =
      ⟨yOff, mo, d, h, mi, s, 1⟩ := by
    have h1 : decodedTm (encodeFields yOff mo d h mi s) =
        ⟨tmYear (encodeFields yOff mo d h mi s),
          mo % 256, d % 256, h % 256, mi % 256, s % 256, 1⟩ := rfl
    rw [h1, hYear, Nat.mod_eq_of_lt (by omega), Nat.mod_eq_of_lt (by omega),
      Nat.mod_eq_of_lt (by omega), Nat.mod_eq_of_lt (by omega),
      Nat.mod_eq_of_lt (by omega)]
  refine ⟨by simp [rtcSetTimeFromPayload, hsig], htm, ?_⟩
  simp [rtcSetTimeFromPayload, hsig, htm]

/-- Witness for C2 (amended) at the tuple (50, 7, 24, 10, 30, 0). -/
theorem roundtrip_byte_year_offset_witness :
    50 < 256 ∧
      decodedTm (encodeFields 50 7 24 10 30 0) = ⟨50, 7, 24, 10, 30, 0, 1⟩ :=
  ⟨by decide,
    (roundtrip_byte_year_offset 50 7 24 10 30 0 (by decide) (by decide)
      (by decide) (by decide) (by decide) (by decide) (by decide)
      (by decide)).2.1⟩

/-- C9: the older 10-byte variant accepts a payload exactly when bytes 0-2
are ASCII "tim"; on acceptance it decodes the Year from bytes 3-4 as a
big-endian 16-bit absolute year (net of the 1970-epoch bookkeeping, a wire
year in [1970, 2225] decodes to itself) and Month/Day/Hour/Minute/Second as
raw bytes at offsets 5-9; in particular a buffer whose Year bytes (high,
low) encode 2023 decodes to the timestamp of calendar year 2023. -/
theorem old_variant_decode :
    (∀ buf, (receiveDateTimeDecode buf).isSome = true ↔
      buf.getD 0 0 = 0x74 ∧ buf.getD 1 0 = 0x69 ∧ buf.getD 2 0 = 0x6d) ∧
    (∀ yHi yLo mo d h mi s : ℕ,
      1970 ≤ yHi * 256 + yLo → yHi * 256 + yLo ≤ 2225 →
      mo < 256 → d < 256 → h < 256 → mi < 256 → s < 256 →
      receiveDateTimeDecode [0x74, 0x69, 0x6d, yHi, yLo, mo, d, h, mi, s] =
        some (makeTime (yHi * 256 + yLo - 1970) mo d h mi s)) ∧
    receiveDateTimeDecode [0x74, 0x69, 0x6d, 0x07, 0xe7, 7, 24, 10, 30, 0] =
      some (epochSeconds 2023 7 24 10 30 0) := by
  refine ⟨fun buf => ?_, fun yHi yLo mo d h mi s h1 h2 hmo hd hh hmi hs => ?_,
    by decide⟩
  · by_cases hsig : oldSigOK buf
    · have hc := hsig
      simp only [oldSigOK, Bool.and_eq_true, beq_iff_eq] at hc
      simp only [receiveDateTimeDecode, hsig, if_true, Option.isSome_some]
      tauto
    · have hc := hsig
      simp only [oldSigOK, Bool.and_eq_true, beq_iff_eq] at hc
      have hf : oldSigOK buf = false := by simpa using hsig
      simp only [receiveDateTimeDecode, hf, Bool.false_eq_true, if_false,
        Option.isSome_none]
      tauto
  · have hsig : oldSigOK [0x74, 0x69, 0x6d, yHi, yLo, mo, d, h, mi, s] =
        true := rfl
    have hYear : oldTmYear [0x74, 0x69, 0x6d, yHi, yLo, mo, d, h, mi, s] =
        yHi * 256 + yLo - 1970 := by
      have he : oldTmYear [0x74, 0x69, 0x6d, yHi, yLo, mo, d, h, mi, s] =
          (yHi * 256 + yLo + (2 ^ 16 - 1970)) % 2 ^ 16 % 256 := rfl
      have h16 : (2 : ℕ) ^ 16 = 65536 := by norm_num
      rw [he, h16]
      omega
    have hfields : receiveDateTimeDecode
        [0x74, 0x69, 0x6d, yHi, yLo, mo, d, h, mi, s] =
        some (makeTime (oldTmYear [0x74, 0x69, 0x6d, yHi, yLo, mo, d, h, mi, s])
          (mo % 256) (d % 256) (h % 256) (mi % 256) (s % 256)) := by
      simp [receiveDateTimeDecode, hsig]
    rw [hfields, hYear, Nat.mod_eq_of_lt (by omega), Nat.mod_eq_of_lt (by omega),
      Nat.mod_eq_of_lt (by omega), Nat.mod_eq_of_lt (by omega),
      Nat.mod_eq_of_lt (by omega)]

/-- Witness for C9 at the year-2023 buffer (0x07E7 = 2023). -/
theorem old_variant_decode_witness :
    receiveDateTimeDecode [0x74, 0x69, 0x6d, 7, 231, 7, 24, 10, 30, 0] =
      some (makeTime (7 * 256 + 231 - 1970) 7 24 10 30 0) :=
  old_variant_decode.2.1 7 231 7 24 10 30 0 (by decide) (by decide) (by decide)
    (by decide) (by decide) (by decide) (by decide)

/-- Unfolding equation for the loop of `nrf24_receive_date_time` at a
received payload. -/
lemma receiveDateTimeLoop_cons_some (buf : List ℕ)
    (rest : List (Option (List ℕ))) :
    receiveDateTimeLoop (some buf :: rest) =
      if (rtcSetTimeFromPayload buf).1 then
        ((rtcSetTimeFromPayload buf).2.toList, true)
      else
        ((rtcSetTimeFromPayload buf).2.toList ++ (receiveDateTimeLoop rest).1,
          (receiveDateTimeLoop rest).2) := rfl

/-- C4: over any sequence of poll outcomes, the `nrf24_receive_date_time`
loop calls `RTC.set` at most once in every reachable state; when it
terminates it has called `RTC.set` exactly once; and the single write
happens immediately at the first accepted payload — the loop returns right
after committing it, whatever outcomes follow. -/
theorem single_commit (outs : List (Option (List ℕ))) :
    (receiveDateTimeLoop outs).1.length ≤ 1 ∧
      ((receiveDateTimeLoop outs).2 = true →
        (receiveDateTimeLoop outs).1.length = 1) ∧
      (∀ pre buf rest, outs = pre ++ some buf :: rest →
        (∀ o ∈ pre, attemptFails o = true) →
        (rtcSetTimeFromPayload buf).1 = true →
        receiveDateTimeLoop outs = ((rtcSetTimeFromPayload buf).2.toList, true)) := by
  induction outs with
  | nil =>
    refine ⟨by simp [receiveDateTimeLoop], by simp [receiveDateTimeLoop], ?_⟩
    intro pre buf rest heq _ _
    cases pre <;> simp at heq
  | cons o rest ih =>
    cases o with
    | none =>
      have hstep : receiveDateTimeLoop (none :: rest) =
          receiveDateTimeLoop rest := rfl
      refine ⟨by rw [hstep]; exact ih.1, by rw [hstep]; exact ih.2.1, ?_⟩
      intro pre buf rest2 heq hfails hacc
      cases pre with
      | nil => simp at heq
      | cons p pre2 =>
        simp only [List.cons_append, List.cons.injEq] at heq
        rw [hstep]
        exact ih.2.2 pre2 buf rest2 heq.2
          (fun x hx => hfails x (List.mem_cons_of_mem p hx)) hacc
    | some b =>
      by_cases hb : (rtcSetTimeFromPayload b).1 = true
      · have h2 : (rtcSetTimeFromPayload b).2 =
            some (makeTime (decodedTm b).Year (decodedTm b).Month
              (decodedTm b).Day (decodedTm b).Hour (decodedTm b).Minute
              (decodedTm b).Second) := by
          rw [rtc_of_fst_true hb]
        have hloop : receiveDateTimeLoop (some b :: rest) =
            ((rtcSetTimeFromPayload b).2.toList, true) := by
          rw [receiveDateTimeLoop_cons_some, if_pos hb]
        refine ⟨by rw [hloop]; simp [h2], by rw [hloop]; simp [h2], ?_⟩
        intro pre buf rest2 heq hfails hacc
        cases pre with
        | nil =>
          simp only [List.nil_append, List.cons.injEq, Option.some.injEq] at heq
          rw [hloop, heq.1]
        | cons p pre2 =>
          simp only [List.cons_append, List.cons.injEq] at heq
          have hfp := hfails p (List.mem_cons_self p pre2)
          rw [← heq.1] at hfp
          simp only [attemptFails, hb, Bool.not_true] at hfp
          cases hfp
      · have hbf : (rtcSetTimeFromPayload b).1 = false := by
          simpa using hb
        have h2 : (rtcSetTimeFromPayload b).2 = none := by
          rw [rtc_of_fst_false hbf]
        have hloop : receiveDateTimeLoop (some b :: rest) =
            ((receiveDateTimeLoop rest).1, (receiveDateTimeLoop rest).2) := by
          rw [receiveDateTimeLoop_cons_some, if_neg (by simp [hbf]), h2]
          simp
        refine ⟨by rw [hloop]; exact ih.1, by rw [hloop]; exact ih.2.1, ?_⟩
        intro pre buf rest2 heq hfails hacc
        cases pre with
        | nil =>
          simp only [List.nil_append, List.cons.injEq, Option.some.injEq] at heq
          rw [heq.1] at hbf
          rw [hacc] at hbf
          cases hbf
        | cons p pre2 =>
          simp only [List.cons_append, List.cons.injEq] at heq
          rw [hloop]
          have := ih.2.2 pre2 buf rest2 heq.2
            (fun x hx => hfails x (List.mem_cons_of_mem p hx)) hacc
          rw [this]

/-- Witness for C4: a timeout and a rejected packet precede the accepted
demo packet; the loop commits exactly its timestamp and terminates. -/
theorem single_commit_witness :
    receiveDateTimeLoop [none, some badBuf, some demoBuf] =
      ((rtcSetTimeFromPayload demoBuf).2.toList, true) :=
  (single_commit [none, some badBuf, some demoBuf]).2.2 [none, some badBuf]
    demoBuf [] rfl (by decide) (by decide)

/-- C6: whenever `nrf24_receive` returns (packet read or timeout alike),
its radio-event trace starts by entering listening mode, ends by leaving it,
and leaves the radio observed in the non-listening state by the caller. -/
theorem listening_toggle (avail : ℕ → Bool) (clock : ℕ → ℕ)
    (timeout fuel : ℕ) (r : Bool) (evs : List RadioEvent)
    (h : nrf24Receive avail clock timeout fuel = some (r, evs)) :
    evs.head? = some RadioEvent.startListening ∧
      evs.getLast? = some RadioEvent.stopListening ∧
      listeningAfter evs = false := by
  unfold nrf24Receive at h
  cases hw : waitAvail avail clock timeout (clock 0) 0 fuel with
  | none => rw [hw] at h; cases h
  | some b =>
    rw [hw] at h
    cases b with
    | true =>
      simp only [Option.some.injEq, Prod.mk.injEq] at h
      rw [← h.2]
      exact ⟨rfl, rfl, rfl⟩
    | false =>
      simp only [Option.some.injEq, Prod.mk.injEq] at h
      rw [← h.2]
      exact ⟨rfl, rfl, rfl⟩

/-- Witness for C6: data available at once, fuel 1. -/
theorem listening_toggle_witness :
    nrf24Receive (fun _ => true) (fun _ => 0) 5 1 =
        some (true, [RadioEvent.startListening, RadioEvent.read,
          RadioEvent.stopListening]) ∧
      listeningAfter [RadioEvent.startListening, RadioEvent.read,
        RadioEvent.stopListening] = false :=
  ⟨rfl,
    (listening_toggle (fun _ => true) (fun _ => 0) 5 1 true
      [RadioEvent.startListening, RadioEvent.read, RadioEvent.stopListening]
      rfl).2.2⟩

/-- The wait loop of `nrf24_receive` exits with data (not timeout) at the
first check reporting availability, provided no earlier iteration saw data
or tripped the elapsed-time test. -/
lemma waitAvail_reaches_avail (avail : ℕ → Bool) (clock : ℕ → ℕ)
    (timeout started : ℕ) :
    ∀ i k fuel, i < fuel → avail (k + i) = true →
      (∀ j, j < i → avail (k + j) = false) →
      (∀ j, j < i → timeoutCheck (clock (k + j + 1)) started timeout = false) →
      waitAvail avail clock timeout started k fuel = some false := by
  intro i
  induction i with
  | zero =>
    intro k fuel hf hav _ _
    cases fuel with
    | zero => omega
    | succ f =>
      simp only [Nat.add_zero] at hav
      simp [waitAvail, hav]
  | succ n ih =>
    intro k fuel hf hav hprev hto
    cases fuel with
    | zero => omega
    | succ f =>
      have h0 : avail k = false := by simpa using hprev 0 (by omega)
      have ht0 : timeoutCheck (clock (k + 1)) started timeout = false := by
        simpa using hto 0 (by omega)
      simp only [waitAvail, h0, ht0, Bool.false_eq_true, if_false]
      exact ih (k + 1) f (by omega)
        (by rw [show k + 1 + n = k + (n + 1) by omega]; exact hav)
        (fun j hj => by
          rw [show k + 1 + j = k + (j + 1) by omega]
          exact hprev (j + 1) (by omega))
        (fun j hj => by
          rw [show k + 1 + j + 1 = k + (j + 1) + 1 by omega]
          exact hto (j + 1) (by omega))

/-- C10: the poller checks data availability before the elapsed-time test on
every iteration; if the radio reports data at check `i` and no earlier
iteration saw data or a tripped elapsed-time test, the packet is read and
returned as a success — with no condition at all on the clock at or after
check `i`, so this holds even when the elapsed time already exceeds the
timeout (in particular for timeout 0 with data pending at entry). -/
theorem avail_checked_before_timeout (avail : ℕ → Bool) (clock : ℕ → ℕ)
    (timeout fuel i : ℕ) (hif : i < fuel) (hav : avail i = true)
    (hprev : ∀ j, j < i → avail j = false)
    (hto : ∀ j, j < i → timeoutCheck (clock (j + 1)) (clock 0) timeout = false) :
    nrf24Receive avail clock timeout fuel =
      some (true, [RadioEvent.startListening, RadioEvent.read,
        RadioEvent.stopListening]) := by
  have hw := waitAvail_reaches_avail avail clock timeout (clock 0) i 0 fuel
    hif (by simpa using hav) (fun j hj => by simpa using hprev j hj)
    (fun j hj => by simpa using hto j hj)
  unfold nrf24Receive
  rw [hw]

/-- Witness for C10: timeout 0, data already pending at entry, a clock
far beyond the timeout — the packet is still returned. -/
theorem avail_checked_before_timeout_witness :
    nrf24Receive (fun _ => true) (fun n => n * 100000) 0 1 =
      some (true, [RadioEvent.startListening, RadioEvent.read,
        RadioEvent.stopListening]) :=
  avail_checked_before_timeout (fun _ => true) (fun n => n * 100000) 0 1 0
    (by decide) rfl (fun j hj => absurd hj (Nat.not_lt_zero j))
    (fun j hj => absurd hj (Nat.not_lt_zero j))

end NRF24TimeClient
